import Mathlib

/-!
Shallow embedding of the FechasHabilesAPI core (src/businessTime.ts,
src/holidays.ts, src/fallbackHolidays.ts) and proofs about it.

Modelling conventions:

- A civil date-time (a JS `Date` carrying Colombia-local wall-clock fields,
  produced by `utcToZonedTime`) is modelled as an `Int`: the number of
  milliseconds since the civil epoch 1970-01-01T00:00:00.  The target
  timezone (America/Bogota) has a fixed UTC offset of -5 hours and no
  daylight saving, so `utcToZonedTime` / `zonedTimeToUtc` are the maps
  `t - 5h` / `t + 5h` on this representation.
- The field accessors `getDay`, `getHours`, `getMinutes` and the field
  updates `setHours`, `setMinutes` of date-fns read and write the civil
  fields; they are expressed with Euclidean (floor, for positive divisors)
  division and remainder, matching JS `Date` semantics for all instants,
  negative times included.  1970-01-01 was a Thursday, and JS `getDay`
  numbers Sunday as 0, hence the `+ 4`.
- A holiday list (`ColombianHolidays = string[]` of `YYYY-MM-DD` entries)
  is modelled at the calendar level as a `List Int` of calendar-day
  indices (days since 1970-01-01): `HolidaysService.isHoliday` compares
  `date.toISOString().split("T")[0]` with the list entries, and the
  date-string of a civil instant is determined exactly by its day index.
  A list entry that is not a well-formed date string never equals any
  instant's date string, so dropping such entries loses nothing.
- The `while` loops of the source are expressed as fuelled structural
  recursion.  Every loop that searches for a business day terminates on
  any input because a finite holiday list cannot cover the five weekdays
  of `length + 1` disjoint calendar weeks; the fuel `7 * (length + 1)`
  is proved sufficient below (`exists_businessDay_lt_businessFuel`).
-/

namespace FechasHabiles

/-! ## Calendar primitives (date-fns field accessors on civil instants) -/

/-- Milliseconds per calendar day. -/
def msPerDay : Int := 86400000

/-- Milliseconds per hour. -/
def msPerHour : Int := 3600000

/-- Milliseconds per minute. -/
def msPerMinute : Int := 60000

/-- Calendar-day index (days since 1970-01-01) of a civil instant. -/
def dayIndex (d : Int) : Int := d / 86400000

/-- Milliseconds elapsed since local midnight. -/
def msOfDay (d : Int) : Int := d % 86400000

/-- date-fns `getDay`: day of week, Sunday = 0 .. Saturday = 6. -/
def getDay (d : Int) : Int := (dayIndex d + 4) % 7

/-- date-fns `getHours`: hour-of-day field, 0..23. -/
def getHours (d : Int) : Int := msOfDay d / 3600000

/-- date-fns `getMinutes`: minute-of-hour field, 0..59. -/
def getMinutes (d : Int) : Int := d % 3600000 / 60000

/-- date-fns `setMinutes`: replace the minute field, keeping all others. -/
def setMinutes (d m : Int) : Int := d - getMinutes d * 60000 + m * 60000

/-- date-fns `setHours`: replace the hour field, keeping all others. -/
def setHours (d h : Int) : Int := d - getHours d * 3600000 + h * 3600000

/-- date-fns `addDays` (constant-offset timezone: one day is 24 h). -/
def addDays (d n : Int) : Int := d + n * 86400000

/-- date-fns `subDays`. -/
def subDays (d n : Int) : Int := d - n * 86400000

/-- date-fns `addMinutes`. -/
def addMinutes (d m : Int) : Int := d + m * 60000

/-- Days since 1970-01-01 of a Gregorian calendar date (the standard
civil-from-days inverse used by JS `Date`); used only to name concrete
dates in concrete-scenario theorems. -/
def daysFromCivil (y m d : Int) : Int :=
  let y' := if m ≤ 2 then y - 1 else y
  let era := y' / 400
  let yoe := y' - era * 400
  let mp := (m + 9) % 12
  let doy := (153 * mp + 2) / 5 + d - 1
  let doe := yoe * 365 + yoe / 4 - yoe / 100 + doy
  era * 146097 + doe - 719468

/-! Sanity checks of the embedding of JS division semantics and of
`daysFromCivil` against known calendar facts. -/

example : (-1 : Int) / 2 = -1 := by decide

example : (-1 : Int) % 2 = 1 := by decide

example : daysFromCivil 1970 1 1 = 0 := by decide

example : daysFromCivil 2025 4 10 = 20188 := by decide

/-- 2025-04-10 was a Thursday. -/
example : getDay (daysFromCivil 2025 4 10 * 86400000) = 4 := by decide

/-- 2025-09-20 was a Saturday. -/
example : getDay (daysFromCivil 2025 9 20 * 86400000) = 6 := by decide

/-! ## BusinessTimeCalculator (src/businessTime.ts) -/

/-- `WORKING_HOURS.start` (8:00 AM). -/
def workStart : Int := 8

/-- `WORKING_HOURS.end` (5:00 PM). -/
def workEnd : Int := 17

/-- `WORKING_HOURS.lunchStart` (12:00 PM). -/
def lunchStart : Int := 12

/-- `WORKING_HOURS.lunchEnd` (1:00 PM). -/
def lunchEnd : Int := 13

/-- `HolidaysService.isHoliday`: the date-string of `date` is in the
holiday list; on the day-index representation, list membership of the
day index. -/
def isHoliday (d : Int) (holidays : List Int) : Bool :=
  holidays.contains (dayIndex d)

/-- `BusinessTimeCalculator.isBusinessDay`: weekday and not a holiday. -/
def isBusinessDay (d : Int) (holidays : List Int) : Bool :=
  let dayOfWeek := getDay d
  if dayOfWeek = 0 ∨ dayOfWeek = 6 then false
  else !(isHoliday d holidays)

/-- `BusinessTimeCalculator.isWithinWorkingHours`. -/
def isWithinWorkingHours (d : Int) : Bool :=
  let totalMinutes := getHours d * 60 + getMinutes d
  (workStart * 60 ≤ totalMinutes ∧ totalMinutes < lunchStart * 60) ∨
    (lunchEnd * 60 ≤ totalMinutes ∧ totalMinutes < workEnd * 60)

/-- `TimeAdjustment` (src/types.ts). -/
structure TimeAdjustment where
  date : Int
  wasAdjusted : Bool
  reason : String
deriving DecidableEq

/-- The `while (!this.isBusinessDay(adjustedDate, holidays))
{ adjustedDate = subDays(adjustedDate, 1) }` loops of
`adjustToPrevBusinessTime`, as fuelled recursion.  With fuel
`businessFuel holidays` the loop always finds a business day
(`exists_businessDay_lt_businessFuel` below), so the fuel never runs out
on the path the source takes. -/
def findPrevBusinessDayAux (holidays : List Int) : Nat → Int → Int
  | 0, d => d
  | fuel + 1, d =>
      if isBusinessDay d holidays then d
      else findPrevBusinessDayAux holidays fuel (subDays d 1)

/-- Fuel sufficient for any business-day search: a finite holiday list of
length `n` cannot cover the `n + 1` distinct Mondays found in any
`7 * (n + 1)` consecutive days. -/
def businessFuel (holidays : List Int) : Nat := 7 * (holidays.length + 1)

/-- `BusinessTimeCalculator.adjustToPrevBusinessTime`. -/
def adjustToPrevBusinessTime (date : Int) (holidays : List Int) : TimeAdjustment :=
  if isBusinessDay date holidays then
    let totalMinutes := getHours date * 60 + getMinutes date
    if totalMinutes < workStart * 60 then
      let d1 := subDays date 1
      let d2 := setHours (setMinutes d1 0) workEnd
      let d3 := findPrevBusinessDayAux holidays (businessFuel holidays) d2
      ⟨d3, true, "Adjusted to previoius business day end (5:00 PM)"⟩
    else if lunchStart * 60 ≤ totalMinutes ∧ totalMinutes < lunchEnd * 60 then
      ⟨setHours (setMinutes date 0) lunchStart, true,
        "Adjusted to start of lunch break (12:00 PM)"⟩
    else if workEnd * 60 ≤ totalMinutes then
      ⟨setHours (setMinutes date 0) workEnd, true,
        "Adjusted to end of business day (after hours)"⟩
    else
      ⟨date, false, ""⟩
  else
    let d1 := findPrevBusinessDayAux holidays (businessFuel holidays) date
    ⟨setHours (setMinutes d1 0) workEnd, true,
      "Moved to next business day (weekend/holiday)"⟩

/-- The `while (remainingDays > 0)` loop of `addBusinessDays`, as fuelled
recursion.  Each iteration adds a calendar day and counts it when it is
a business day. -/
def addBusinessDaysAux (holidays : List Int) : Nat → Int → Int → Int
  | 0, d, _ => d
  | fuel + 1, d, remaining =>
      if remaining > 0 then
        let d1 := addDays d 1
        addBusinessDaysAux holidays fuel d1
          (if isBusinessDay d1 holidays then remaining - 1 else remaining)
      else d

/-- `BusinessTimeCalculator.addBusinessDays`. -/
def addBusinessDays (startDate businessDays : Int) (holidays : List Int) : Int :=
  if businessDays = 0 then startDate
  else addBusinessDaysAux holidays
    (businessFuel holidays * businessDays.toNat + 1) startDate businessDays

/-- The forward `while (!this.isBusinessDay(currentDate, holidays))
{ currentDate = addDays(currentDate, 1) }` loop of `addBusinessHours`. -/
def findNextBusinessDayAux (holidays : List Int) : Nat → Int → Int
  | 0, d => d
  | fuel + 1, d =>
      if isBusinessDay d holidays then d
      else findNextBusinessDayAux holidays fuel (addDays d 1)

/-- One pass of the `while (remainingMinutes > 0)` loop body of
`addBusinessHours`; returns the updated position and remaining minutes. -/
def addBusinessHoursStep (holidays : List Int) (d remainingMinutes : Int) :
    Int × Int :=
  let adjustment := adjustToPrevBusinessTime d holidays
  let c := adjustment.date
  let currentTotalMinutes := getHours c * 60 + getMinutes c
  let availableMinutesUntilLunch :=
    if currentTotalMinutes < lunchStart * 60 then
      lunchStart * 60 - currentTotalMinutes
    else 0
  let availableMinutesAfterLunch :=
    if currentTotalMinutes < workEnd * 60 then
      workEnd * 60 - max currentTotalMinutes (lunchEnd * 60)
    else 0
  let totalAvailableToday := availableMinutesUntilLunch + availableMinutesAfterLunch
  if remainingMinutes ≤ totalAvailableToday then
    if remainingMinutes ≤ availableMinutesUntilLunch then
      (addMinutes c remainingMinutes, 0)
    else
      let minutesToLunch := availableMinutesUntilLunch
      let minutesAfterLunch := remainingMinutes - minutesToLunch
      let c1 := addMinutes c minutesToLunch
      let c2 := setHours (setMinutes c1 0) lunchEnd
      (addMinutes c2 minutesAfterLunch, 0)
  else
    let c1 := addDays c 1
    let c2 := setHours (setMinutes c1 0) workStart
    (findNextBusinessDayAux holidays (businessFuel holidays) c2,
      remainingMinutes - totalAvailableToday)

/-- The `while (remainingMinutes > 0)` loop of `addBusinessHours`, as
fuelled recursion over the step function. -/
def addBusinessHoursAux (holidays : List Int) : Nat → Int → Int → Int
  | 0, d, _ => d
  | fuel + 1, d, remainingMinutes =>
      if remainingMinutes > 0 then
        let s := addBusinessHoursStep holidays d remainingMinutes
        addBusinessHoursAux holidays fuel s.1 s.2
      else d

/-- `BusinessTimeCalculator.addBusinessHours`. -/
def addBusinessHours (startDate businessHours : Int) (holidays : List Int) : Int :=
  if businessHours = 0 then startDate
  else addBusinessHoursAux holidays (businessHours.toNat + 2) startDate
    (businessHours * 60)

/-- `BusinessTimeCalculator.utcToColombiaTime`: America/Bogota is UTC-5,
with no daylight saving. -/
def utcToColombiaTime (d : Int) : Int := d - 5 * 3600000

/-- `BusinessTimeCalculator.colombiaTimeToUtc`. -/
def colombiaTimeToUtc (d : Int) : Int := d + 5 * 3600000

/-- `BusinessTimeCalculator.calculateBusinessTime`.  `none` models an
absent (`undefined`) argument; `nowColombia` stands for
`getCurrentColombiaTime()`, consulted only when `startDate` is absent.
The `businessDays && businessDays > 0` truthiness tests of the source
reduce to the `0 < n` tests below (0 is falsy). -/
def calculateBusinessTime (startDate : Option Int) (nowColombia : Int)
    (businessDays businessHours : Option Int) (holidays : List Int) : Int :=
  let c0 :=
    match startDate with
    | some d => utcToColombiaTime d
    | none => nowColombia
  let c1 := (adjustToPrevBusinessTime c0 holidays).date
  let c2 :=
    match businessDays with
    | some n => if 0 < n then addBusinessDays c1 n holidays else c1
    | none => c1
  let c3 :=
    match businessHours with
    | some n => if 0 < n then addBusinessHours c2 n holidays else c2
    | none => c2
  colombiaTimeToUtc c3

/-! ## HolidaysService (src/holidays.ts) and fallback data
(src/fallbackHolidays.ts)

At the service layer a holiday list is the raw payload, a list of
strings; the service never inspects an entry beyond the array check of
`fetchWithRetry`, so no date decoding is needed here. -/

/-- `CircuitBreakerState.state` literals. -/
inductive CBPhase where
  | CLOSED
  | OPEN
  | HALF_OPEN
deriving DecidableEq

/-- `CircuitBreakerState` (src/holidays.ts). -/
structure CircuitBreakerState where
  failures : Int
  lastFailureTime : Int
  state : CBPhase
deriving DecidableEq

/-- `HolidayServiceStatus`. -/
inductive HolidayServiceStatus where
  | HEALTHY
  | DEGRADED
  | FAILED
deriving DecidableEq

/-- `HolidayServiceResult.source` literals. -/
inductive HolidaySource where
  | CACHE
  | API
  | FALLBACK
deriving DecidableEq

/-- `HolidayServiceResult`; `lastUpdated : number | null` becomes
`Option Int`. -/
structure HolidayServiceResult where
  holidays : List String
  status : HolidayServiceStatus
  source : HolidaySource
  lastUpdated : Option Int
deriving DecidableEq

/-- `HolidaysService.CACHE_DURATION` (24 hours in ms). -/
def CACHE_DURATION : Int := 24 * 60 * 60 * 1000

/-- `HolidaysService.MAX_FAILURES`. -/
def MAX_FAILURES : Int := 3

/-- `HolidaysService.CIRCUIT_TIMEOUT` (5 minutes in ms). -/
def CIRCUIT_TIMEOUT : Int := 5 * 60 * 1000

/-- `HolidaysService.BASE_DELAY` (1 second in ms). -/
def BASE_DELAY : Int := 1000

/-- The mutable static fields of `HolidaysService` gathered in one
record: `cache`, `lastFetch` and `circuitBreaker`. -/
structure ServiceState where
  cache : Option (List String)
  lastFetch : Int
  circuitBreaker : CircuitBreakerState
deriving DecidableEq

/-- The state at module load: no cache, `lastFetch = 0`, breaker CLOSED
with no failures. -/
def initialServiceState : ServiceState :=
  ⟨none, 0, ⟨0, 0, .CLOSED⟩⟩

/-- `HolidaysService.isCircuitOpen`: returns the boolean answer together
with the (possibly HALF_OPEN-transitioned) breaker state it leaves
behind. -/
def isCircuitOpen (cb : CircuitBreakerState) (now : Int) :
    Bool × CircuitBreakerState :=
  match cb.state with
  | .OPEN =>
      if now - cb.lastFailureTime > CIRCUIT_TIMEOUT then
        (false, { cb with state := .HALF_OPEN })
      else (true, cb)
  | _ => (false, cb)

/-- `HolidaysService.recordFailure`. -/
def recordFailure (cb : CircuitBreakerState) (now : Int) :
    CircuitBreakerState :=
  let cb1 := { cb with failures := cb.failures + 1, lastFailureTime := now }
  if cb1.failures ≥ MAX_FAILURES then { cb1 with state := .OPEN } else cb1

/-- `HolidaysService.resetCircuitBreaker`. -/
def resetCircuitBreaker (cb : CircuitBreakerState) : CircuitBreakerState :=
  { cb with failures := 0, state := .CLOSED }

/-- `FALLBACK_COLOMBIAN_HOLIDAYS` (src/fallbackHolidays.ts), verbatim,
including the duplicated 2025-06-30 entry. -/
def FALLBACK_COLOMBIAN_HOLIDAYS : List String :=
  ["2024-01-01", "2024-01-08", "2024-03-25", "2024-03-28", "2024-03-29",
   "2024-05-01", "2024-05-13", "2024-06-03", "2024-06-10", "2024-07-01",
   "2024-07-20", "2024-08-07", "2024-08-19", "2024-10-14", "2024-11-04",
   "2024-11-11", "2024-12-08", "2024-12-25",
   "2025-01-01", "2025-01-06", "2025-03-24", "2025-04-17", "2025-04-18",
   "2025-05-01", "2025-06-02", "2025-06-23", "2025-06-30", "2025-06-30",
   "2025-07-20", "2025-08-07", "2025-08-18", "2025-10-13", "2025-11-03",
   "2025-11-17", "2025-12-08", "2025-12-25"]

/-- The year `new Date(holiday).getFullYear()` extracts from a
`YYYY-MM-DD` entry: its leading four digits. -/
def holidayYear (s : String) : Int :=
  ((s.take 4).toNat?).getD 0

/-- JS truthiness of an optional number argument: `undefined` and `0`
are falsy. -/
def truthyIntArg : Option Int → Bool
  | none => false
  | some v => v ≠ 0

/-- `getFallbackHolidays` (src/fallbackHolidays.ts). -/
def getFallbackHolidays (startYear endYear : Option Int) : List String :=
  if !truthyIntArg startYear ∧ !truthyIntArg endYear then
    FALLBACK_COLOMBIAN_HOLIDAYS
  else
    FALLBACK_COLOMBIAN_HOLIDAYS.filter fun holiday =>
      let year := holidayYear holiday
      let afterStart := !truthyIntArg startYear || year ≥ startYear.getD 0
      let beforeEnd := !truthyIntArg endYear || year ≤ endYear.getD 0
      afterStart && beforeEnd

/-- `HolidaysService.getFallbackResult`; `currentYear` stands for
`new Date().getFullYear()`. -/
def getFallbackResult (currentYear : Int) : HolidayServiceResult :=
  ⟨getFallbackHolidays (some currentYear) (some (currentYear + 1)),
    .FAILED, .FALLBACK, none⟩

/-- The outcome of the `fetchWithRetry` call a `getColombianHolidays`
invocation would perform: either a holiday payload or the final error
thrown after exhausting the retries. -/
inductive FetchCycleOutcome where
  | success (holidays : List String)
  | exhausted (err : String)
deriving DecidableEq

/-- What one `getColombianHolidays` call produces: the returned result,
the service state it leaves behind, and whether a fetch cycle was
performed. -/
structure CallOutcome where
  result : HolidayServiceResult
  state : ServiceState
  fetched : Bool
deriving DecidableEq

/-- `HolidaysService.getColombianHolidays` after the cache check failed
(lines 55-95 of src/holidays.ts). -/
def getColombianHolidaysUncached (s : ServiceState) (now currentYear : Int)
    (fetch : FetchCycleOutcome) : CallOutcome :=
  let opencb := isCircuitOpen s.circuitBreaker now
  let s1 := { s with circuitBreaker := opencb.2 }
  if opencb.1 then
    ⟨getFallbackResult currentYear, s1, false⟩
  else
    match fetch with
    | .success holidays =>
        ⟨⟨holidays, .HEALTHY, .API, some now⟩,
          ⟨some holidays, now, resetCircuitBreaker opencb.2⟩, true⟩
    | .exhausted _ =>
        let cb2 := recordFailure opencb.2 now
        match s.cache with
        | some c =>
            ⟨⟨c, .DEGRADED, .CACHE, some s.lastFetch⟩,
              { s1 with circuitBreaker := cb2 }, true⟩
        | none =>
            ⟨getFallbackResult currentYear,
              { s1 with circuitBreaker := cb2 }, true⟩

/-- `HolidaysService.getColombianHolidays` as a state-transition
function.  `now` stands for `Date.now()`, `currentYear` for
`new Date().getFullYear()`, and `fetch` for the outcome the network
would give if a fetch cycle runs. -/
def getColombianHolidays (s : ServiceState) (now currentYear : Int)
    (fetch : FetchCycleOutcome) : CallOutcome :=
  match s.cache with
  | some c =>
      if now - s.lastFetch < CACHE_DURATION then
        ⟨⟨c, .HEALTHY, .CACHE, some s.lastFetch⟩, s, false⟩
      else getColombianHolidaysUncached s now currentYear fetch
  | none => getColombianHolidaysUncached s now currentYear fetch

/-! ## fetchWithRetry and backoff (src/holidays.ts lines 98-140) -/

/-- What one network attempt of `fetchWithRetry` observes: either the
request threw (error, timeout), or a response arrived whose payload may
or may not be an array. -/
inductive AttemptOutcome where
  | netError (msg : String)
  | responded (isArray : Bool) (data : List String)
deriving DecidableEq

/-- The value an attempt contributes inside the `try` block: a response
that is not an array throws `Invalid response format from holidays
service`. -/
def attemptResult : AttemptOutcome → Except String (List String)
  | .netError msg => .error msg
  | .responded true data => .ok data
  | .responded false _ => .error "Invalid response format from holidays service"

/-- `HolidaysService.calculateBackoffDelay`; `rand` stands for the
`Math.random()` draw, a rational in `[0, 1)`.  Delays are exact
rationals. -/
def calculateBackoffDelay (attempt : Nat) (rand : ℚ) : ℚ :=
  let exponentialDelay : ℚ := (BASE_DELAY : ℚ) * 2 ^ (attempt - 1)
  let jitter := rand * (1 / 10) * exponentialDelay
  min (exponentialDelay + jitter) 10000

deriving instance DecidableEq for Except

/-- Trace of one `fetchWithRetry` run: its outcome, how many attempts it
made, and the backoff delays it slept (in attempt order). -/
structure FetchTrace where
  result : Except String (List String)
  attemptsMade : Nat
  delays : List ℚ
deriving DecidableEq

/-- The `for (let attempt = 0; attempt <= this.MAX_RETRIES; attempt++)`
loop of `fetchWithRetry`: `attempt` is the current index, `remaining`
the number of further iterations the bound still allows, `outcomes` the
network behaviour per attempt index and `rand` the `Math.random()` draw
per attempt index. -/
def fetchWithRetryAux (outcomes : Nat → AttemptOutcome) (rand : Nat → ℚ) :
    Nat → Nat → FetchTrace
  | attempt, remaining =>
      let delays := if attempt > 0 then [calculateBackoffDelay attempt (rand attempt)] else []
      match attemptResult (outcomes attempt), remaining with
      | .ok data, _ => ⟨.ok data, 1, delays⟩
      | .error e, 0 => ⟨.error e, 1, delays⟩
      | .error _, r + 1 =>
          let t := fetchWithRetryAux outcomes rand (attempt + 1) r
          ⟨t.result, t.attemptsMade + 1, delays ++ t.delays⟩

/-- `HolidaysService.fetchWithRetry` (MAX_RETRIES = 3 further attempts
after the first). -/
def fetchWithRetry (outcomes : Nat → AttemptOutcome) (rand : Nat → ℚ) :
    FetchTrace :=
  fetchWithRetryAux outcomes rand 0 3

/-! ## Arithmetic facts about the calendar field operations -/

theorem dayIndex_sub_days (d : Int) (k : Nat) :
    dayIndex (d - (k : Int) * 86400000) = dayIndex d - k := by
  unfold dayIndex
  omega

theorem fields_sub_days (d : Int) (k : Nat) :
    getHours (d - (k : Int) * 86400000) = getHours d ∧
      getMinutes (d - (k : Int) * 86400000) = getMinutes d ∧
      (d - (k : Int) * 86400000) % 60000 = d % 60000 := by
  unfold getHours getMinutes msOfDay
  omega

theorem endOfDaySet_fields (d h : Int) (h0 : 0 ≤ h) (h1 : h < 24) :
    dayIndex (setHours (setMinutes d 0) h) = dayIndex d ∧
      getHours (setHours (setMinutes d 0) h) = h ∧
      getMinutes (setHours (setMinutes d 0) h) = 0 ∧
      setHours (setMinutes d 0) h % 60000 = d % 60000 := by
  unfold setHours setMinutes getHours getMinutes msOfDay dayIndex
  omega

theorem endOfDaySet_fixed (d h : Int) (hm : getMinutes d = 0)
    (hh : getHours d = h) : setHours (setMinutes d 0) h = d := by
  unfold setHours setMinutes getHours getMinutes msOfDay at *
  omega

theorem isBusinessDay_congr {d d' : Int} (holidays : List Int)
    (h : dayIndex d = dayIndex d') :
    isBusinessDay d holidays = isBusinessDay d' holidays := by
  unfold isBusinessDay getDay isHoliday
  rw [h]

/-! ## The backwards business-day search always succeeds -/

theorem dayIndex_mem_of_monday_not_business {H : List Int} {x : Int}
    (hweek : (dayIndex x + 4) % 7 = 1) (hbiz : isBusinessDay x H = false) :
    dayIndex x ∈ H := by
  unfold isBusinessDay getDay at hbiz
  rw [hweek] at hbiz
  norm_num at hbiz
  unfold isHoliday at hbiz
  simpa using hbiz

/-- Pigeonhole: a holiday list of length `n` cannot block all of the
`n + 1` distinct Mondays that occur in any `7 * (n + 1)` consecutive
calendar days, so a business day always lies at most
`businessFuel H - 1` days back. -/
theorem exists_businessDay_lt_businessFuel (H : List Int) (d : Int) :
    ∃ k : Nat, k < businessFuel H ∧
      isBusinessDay (d - (k : Int) * 86400000) H = true := by
  by_contra hcon
  push_neg at hcon
  have hfalse : ∀ k : Nat, k < businessFuel H →
      isBusinessDay (d - (k : Int) * 86400000) H = false := by
    intro k hk
    have hne := hcon k hk
    cases hb : isBusinessDay (d - (k : Int) * 86400000) H
    · rfl
    · exact absurd hb hne
  have hmem : ∀ i ∈ Finset.range (H.length + 1),
      dayIndex d - 7 * (i : Int) - ((dayIndex d - 7 * (i : Int) - 4) % 7) ∈ H := by
    intro i hi
    rw [Finset.mem_range] at hi
    have hr0 : 0 ≤ (dayIndex d - 7 * (i : Int) - 4) % 7 :=
      Int.emod_nonneg _ (by norm_num)
    have hr1 : (dayIndex d - 7 * (i : Int) - 4) % 7 < 7 :=
      Int.emod_lt_of_pos _ (by norm_num)
    obtain ⟨k, hkeq⟩ : ∃ k : Nat, (k : Int) =
        7 * (i : Int) + (dayIndex d - 7 * (i : Int) - 4) % 7 := ⟨_, Int.toNat_of_nonneg (by omega)⟩
    have hklt : k < businessFuel H := by
      unfold businessFuel
      omega
    have hb := hfalse k hklt
    have hdi : dayIndex (d - (k : Int) * 86400000) =
        dayIndex d - 7 * (i : Int) - ((dayIndex d - 7 * (i : Int) - 4) % 7) := by
      unfold dayIndex at *
      omega
    have hweek : (dayIndex (d - (k : Int) * 86400000) + 4) % 7 = 1 := by
      rw [hdi]
      omega
    have hm := dayIndex_mem_of_monday_not_business hweek hb
    rwa [hdi] at hm
  have hinj : Set.InjOn
      (fun i : Nat => dayIndex d - 7 * (i : Int) -
        ((dayIndex d - 7 * (i : Int) - 4) % 7))
      (Finset.range (H.length + 1)) := by
    intro i _ j _ hij
    dsimp only at hij
    have ri0 : 0 ≤ (dayIndex d - 7 * (i : Int) - 4) % 7 :=
      Int.emod_nonneg _ (by norm_num)
    have ri1 : (dayIndex d - 7 * (i : Int) - 4) % 7 < 7 :=
      Int.emod_lt_of_pos _ (by norm_num)
    have rj0 : 0 ≤ (dayIndex d - 7 * (j : Int) - 4) % 7 :=
      Int.emod_nonneg _ (by norm_num)
    have rj1 : (dayIndex d - 7 * (j : Int) - 4) % 7 < 7 :=
      Int.emod_lt_of_pos _ (by norm_num)
    omega
  have hcard := Finset.card_le_card_of_injOn _
    (fun i hi => List.mem_toFinset.mpr (hmem i hi)) hinj
  rw [Finset.card_range] at hcard
  have hlen := H.toFinset_card_le
  omega

/-- Behaviour of the fuelled backwards search: as soon as some business
day lies within the fuel window, the search returns the nearest one
(stepping back one day at a time past non-business days only). -/
theorem findPrevBusinessDayAux_spec (H : List Int) :
    ∀ (fuel : Nat) (d : Int),
      (∃ k : Nat, k < fuel ∧ isBusinessDay (d - (k : Int) * 86400000) H = true) →
      ∃ k : Nat, k < fuel ∧
        findPrevBusinessDayAux H fuel d = d - (k : Int) * 86400000 ∧
        isBusinessDay (d - (k : Int) * 86400000) H = true ∧
        ∀ j : Nat, j < k → isBusinessDay (d - (j : Int) * 86400000) H = false := by
  intro fuel
  induction fuel with
  | zero =>
      intro d h
      obtain ⟨k, hk, _⟩ := h
      omega
  | succ n ih =>
      intro d h
      by_cases hbd : isBusinessDay d H = true
      · refine ⟨0, Nat.succ_pos n, ?_, ?_, ?_⟩
        · unfold findPrevBusinessDayAux
          rw [if_pos hbd]
          norm_num
        · norm_num
          exact hbd
        · intro j hj
          omega
      · obtain ⟨k, hk, hkb⟩ := h
        have hk0 : k ≠ 0 := by
          intro h0
          apply hbd
          rw [h0] at hkb
          norm_num at hkb
          exact hkb
        obtain ⟨k', rfl⟩ := Nat.exists_eq_succ_of_ne_zero hk0
        have hstep : d - ((k' + 1 : Nat) : Int) * 86400000 =
            subDays d 1 - (k' : Int) * 86400000 := by
          unfold subDays
          push_cast
          ring
        rw [hstep] at hkb
        obtain ⟨k0, hk0lt, hk0eq, hk0b, hk0min⟩ :=
          ih (subDays d 1) ⟨k', by omega, hkb⟩
        refine ⟨k0 + 1, by omega, ?_, ?_, ?_⟩
        · unfold findPrevBusinessDayAux
          rw [if_neg (by simpa using hbd)]
          rw [hk0eq]
          unfold subDays
          push_cast
          ring
        · have : d - ((k0 + 1 : Nat) : Int) * 86400000 =
              subDays d 1 - (k0 : Int) * 86400000 := by
            unfold subDays
            push_cast
            ring
          rw [this]
          exact hk0b
        · intro j hj
          cases j with
          | zero =>
              norm_num
              simpa using hbd
          | succ j' =>
              have : d - ((j' + 1 : Nat) : Int) * 86400000 =
                  subDays d 1 - (j' : Int) * 86400000 := by
                unfold subDays
                push_cast
                ring
              rw [this]
              exact hk0min j' (by omega)

/-- The backwards search run with the default fuel lands on a business
day, an integer number of days back. -/
theorem findPrevBusinessDay_found (H : List Int) (d : Int) :
    ∃ k : Nat,
      findPrevBusinessDayAux H (businessFuel H) d = d - (k : Int) * 86400000 ∧
      isBusinessDay (findPrevBusinessDayAux H (businessFuel H) d) H = true := by
  obtain ⟨k, hk, hkeq, hkb, _⟩ :=
    findPrevBusinessDayAux_spec H (businessFuel H) d
      (exists_businessDay_lt_businessFuel H d)
  exact ⟨k, hkeq, by rw [hkeq]; exact hkb⟩

/-! ## Branch evaluations and fixed points of the adjustment -/

theorem getHours_bounds (d : Int) : 0 ≤ getHours d ∧ getHours d < 24 := by
  unfold getHours msOfDay
  omega

theorem getMinutes_bounds (d : Int) : 0 ≤ getMinutes d ∧ getMinutes d < 60 := by
  unfold getMinutes
  omega

theorem adjust_eval_notBusiness {x : Int} {H : List Int}
    (h : isBusinessDay x H = false) :
    adjustToPrevBusinessTime x H =
      ⟨setHours (setMinutes (findPrevBusinessDayAux H (businessFuel H) x) 0)
        workEnd, true, "Moved to next business day (weekend/holiday)"⟩ := by
  unfold adjustToPrevBusinessTime
  rw [h]
  norm_num

theorem adjust_eval_beforeStart {x : Int} {H : List Int}
    (h : isBusinessDay x H = true)
    (hlt : getHours x * 60 + getMinutes x < 480) :
    adjustToPrevBusinessTime x H =
      ⟨findPrevBusinessDayAux H (businessFuel H)
          (setHours (setMinutes (subDays x 1) 0) workEnd), true,
        "Adjusted to previoius business day end (5:00 PM)"⟩ := by
  unfold adjustToPrevBusinessTime
  rw [h]
  simp only [workStart, lunchStart, lunchEnd, workEnd]
  rw [if_pos trivial, if_pos (by omega)]

theorem adjust_eval_lunch {x : Int} {H : List Int}
    (h : isBusinessDay x H = true)
    (h1 : 720 ≤ getHours x * 60 + getMinutes x)
    (h2 : getHours x * 60 + getMinutes x < 780) :
    adjustToPrevBusinessTime x H =
      ⟨setHours (setMinutes x 0) lunchStart, true,
        "Adjusted to start of lunch break (12:00 PM)"⟩ := by
  unfold adjustToPrevBusinessTime
  rw [h]
  simp only [workStart, lunchStart, lunchEnd, workEnd]
  rw [if_pos trivial, if_neg (by omega), if_pos (by omega)]

theorem adjust_eval_afterEnd {x : Int} {H : List Int}
    (h : isBusinessDay x H = true)
    (h1 : 1020 ≤ getHours x * 60 + getMinutes x) :
    adjustToPrevBusinessTime x H =
      ⟨setHours (setMinutes x 0) workEnd, true,
        "Adjusted to end of business day (after hours)"⟩ := by
  unfold adjustToPrevBusinessTime
  rw [h]
  simp only [workStart, lunchStart, lunchEnd, workEnd]
  rw [if_pos trivial, if_neg (by omega), if_neg (by omega), if_pos (by omega)]

theorem adjust_eval_within {x : Int} {H : List Int}
    (h : isBusinessDay x H = true)
    (h1 : 480 ≤ getHours x * 60 + getMinutes x)
    (h2 : getHours x * 60 + getMinutes x < 720 ∨
      (780 ≤ getHours x * 60 + getMinutes x ∧
        getHours x * 60 + getMinutes x < 1020)) :
    adjustToPrevBusinessTime x H = ⟨x, false, ""⟩ := by
  unfold adjustToPrevBusinessTime
  rw [h]
  simp only [workStart, lunchStart, lunchEnd, workEnd]
  rw [if_pos trivial, if_neg (by omega), if_neg (by omega), if_neg (by omega)]

theorem isBusinessDay_true_of {x : Int} {H : List Int}
    (h1 : getDay x ≠ 0) (h2 : getDay x ≠ 6) (h3 : dayIndex x ∉ H) :
    isBusinessDay x H = true := by
  unfold isBusinessDay isHoliday
  simp [h1, h2, h3]

theorem adjust_fixed_endOfDay {o : Int} {H : List Int}
    (hbiz : isBusinessDay o H = true) (hh : getHours o = 17)
    (hm : getMinutes o = 0) :
    adjustToPrevBusinessTime o H =
      ⟨o, true, "Adjusted to end of business day (after hours)"⟩ := by
  have h1 : (1020 : Int) ≤ getHours o * 60 + getMinutes o := by omega
  rw [adjust_eval_afterEnd hbiz h1,
    endOfDaySet_fixed o workEnd hm (show getHours o = workEnd from hh)]

theorem adjust_fixed_lunchStart {o : Int} {H : List Int}
    (hbiz : isBusinessDay o H = true) (hh : getHours o = 12)
    (hm : getMinutes o = 0) :
    adjustToPrevBusinessTime o H =
      ⟨o, true, "Adjusted to start of lunch break (12:00 PM)"⟩ := by
  have h1 : (720 : Int) ≤ getHours o * 60 + getMinutes o := by omega
  have h2 : getHours o * 60 + getMinutes o < 780 := by omega
  rw [adjust_eval_lunch hbiz h1 h2,
    endOfDaySet_fixed o lunchStart hm (show getHours o = lunchStart from hh)]

/-- C5: idempotence of the backward business-time adjustment — for every
civil date-time `x` and every holiday set `H`, re-running
`adjustToPrevBusinessTime` on its own result date returns that date
unchanged. -/
theorem adjustToPrevBusinessTime_idempotent (x : Int) (H : List Int) :
    (adjustToPrevBusinessTime (adjustToPrevBusinessTime x H).date H).date =
      (adjustToPrevBusinessTime x H).date := by
  have hmb := getMinutes_bounds x
  have hhb := getHours_bounds x
  by_cases hbiz : isBusinessDay x H = true
  · by_cases hlt : getHours x * 60 + getMinutes x < 480
    · rw [adjust_eval_beforeStart hbiz hlt]
      show (adjustToPrevBusinessTime (findPrevBusinessDayAux H (businessFuel H)
        (setHours (setMinutes (subDays x 1) 0) workEnd)) H).date = _
      obtain ⟨k, hkeq, hkbiz⟩ :=
        findPrevBusinessDay_found H (setHours (setMinutes (subDays x 1) 0) workEnd)
      have hbf := endOfDaySet_fields (subDays x 1) workEnd
        (by norm_num [workEnd]) (by norm_num [workEnd])
      have hsf := fields_sub_days (setHours (setMinutes (subDays x 1) 0) workEnd) k
      have hha : getHours (findPrevBusinessDayAux H (businessFuel H)
          (setHours (setMinutes (subDays x 1) 0) workEnd)) = 17 := by
        rw [hkeq, hsf.1]
        exact hbf.2.1
      have hma : getMinutes (findPrevBusinessDayAux H (businessFuel H)
          (setHours (setMinutes (subDays x 1) 0) workEnd)) = 0 := by
        rw [hkeq, hsf.2.1]
        exact hbf.2.2.1
      rw [adjust_fixed_endOfDay hkbiz hha hma]
    · by_cases hlu : 720 ≤ getHours x * 60 + getMinutes x ∧
          getHours x * 60 + getMinutes x < 780
      · rw [adjust_eval_lunch hbiz hlu.1 hlu.2]
        show (adjustToPrevBusinessTime (setHours (setMinutes x 0) lunchStart) H).date = _
        have hbf := endOfDaySet_fields x lunchStart
          (by norm_num [lunchStart]) (by norm_num [lunchStart])
        have hbizo : isBusinessDay (setHours (setMinutes x 0) lunchStart) H = true :=
          (isBusinessDay_congr H hbf.1).trans hbiz
        rw [adjust_fixed_lunchStart hbizo
          (show getHours (setHours (setMinutes x 0) lunchStart) = 12 from hbf.2.1)
          hbf.2.2.1]
      · by_cases hen : 1020 ≤ getHours x * 60 + getMinutes x
        · rw [adjust_eval_afterEnd hbiz hen]
          show (adjustToPrevBusinessTime (setHours (setMinutes x 0) workEnd) H).date = _
          have hbf := endOfDaySet_fields x workEnd
            (by norm_num [workEnd]) (by norm_num [workEnd])
          have hbizo : isBusinessDay (setHours (setMinutes x 0) workEnd) H = true :=
            (isBusinessDay_congr H hbf.1).trans hbiz
          rw [adjust_fixed_endOfDay hbizo
            (show getHours (setHours (setMinutes x 0) workEnd) = 17 from hbf.2.1)
            hbf.2.2.1]
        · have hres := adjust_eval_within hbiz (by omega) (by omega)
          rw [hres]
          show (adjustToPrevBusinessTime x H).date = _
          rw [hres]
  · have hb : isBusinessDay x H = false := by
      cases h : isBusinessDay x H
      · rfl
      · exact absurd h hbiz
    rw [adjust_eval_notBusiness hb]
    show (adjustToPrevBusinessTime (setHours (setMinutes
      (findPrevBusinessDayAux H (businessFuel H) x) 0) workEnd) H).date = _
    obtain ⟨k, hkeq, hkbiz⟩ := findPrevBusinessDay_found H x
    have hbf := endOfDaySet_fields (findPrevBusinessDayAux H (businessFuel H) x)
      workEnd (by norm_num [workEnd]) (by norm_num [workEnd])
    have hbizo : isBusinessDay (setHours (setMinutes
        (findPrevBusinessDayAux H (businessFuel H) x) 0) workEnd) H = true :=
      (isBusinessDay_congr H hbf.1).trans hkbiz
    rw [adjust_fixed_endOfDay hbizo
      (show getHours (setHours (setMinutes
        (findPrevBusinessDayAux H (businessFuel H) x) 0) workEnd) = 17 from hbf.2.1)
      hbf.2.2.1]

/-- C6: a civil date-time on a Monday-Friday whose calendar date is not a
holiday and whose minutes-of-day lie in `[480, 720)` or `[780, 1020)` is
returned unchanged by `adjustToPrevBusinessTime`, with
`wasAdjusted = false`. -/
theorem adjust_withinWorkingHours_unchanged (x : Int) (H : List Int)
    (hday : 1 ≤ getDay x ∧ getDay x ≤ 5) (hhol : dayIndex x ∉ H)
    (htime : (480 ≤ getHours x * 60 + getMinutes x ∧
        getHours x * 60 + getMinutes x < 720) ∨
      (780 ≤ getHours x * 60 + getMinutes x ∧
        getHours x * 60 + getMinutes x < 1020)) :
    adjustToPrevBusinessTime x H = ⟨x, false, ""⟩ := by
  have hbiz : isBusinessDay x H = true :=
    isBusinessDay_true_of (by omega) (by omega) hhol
  exact adjust_eval_within hbiz (by omega) (by omega)

/-- C6 witness: Monday 2025-04-14 at 09:00 Colombia-local, empty holiday
set, is a fixed point with `wasAdjusted = false`. -/
theorem adjust_withinWorkingHours_unchanged_witness :
    adjustToPrevBusinessTime
        (daysFromCivil 2025 4 14 * 86400000 + 9 * 3600000) [] =
      ⟨daysFromCivil 2025 4 14 * 86400000 + 9 * 3600000, false, ""⟩ :=
  adjust_withinWorkingHours_unchanged _ [] (by decide) (by decide) (by decide)

/-- C7 (amended): for an input whose calendar day is not a business day,
`adjustToPrevBusinessTime` steps back one calendar day at a time exactly
past the non-business days, lands on the nearest earlier business day,
sets the hour to 17 (`end`) and the minute to 0 — preserving the input's
seconds and milliseconds — and reports `wasAdjusted = true`. -/
theorem adjust_notBusinessDay_prevBusinessEnd (x : Int) (H : List Int)
    (h : isBusinessDay x H = false) :
    (adjustToPrevBusinessTime x H).wasAdjusted = true ∧
      isBusinessDay (adjustToPrevBusinessTime x H).date H = true ∧
      getHours (adjustToPrevBusinessTime x H).date = 17 ∧
      getMinutes (adjustToPrevBusinessTime x H).date = 0 ∧
      (adjustToPrevBusinessTime x H).date % 60000 = x % 60000 ∧
      dayIndex (adjustToPrevBusinessTime x H).date ≤ dayIndex x ∧
      ∀ j : Int, dayIndex (adjustToPrevBusinessTime x H).date < j →
        j ≤ dayIndex x → isBusinessDay (j * 86400000) H = false := by
  rw [adjust_eval_notBusiness h]
  dsimp only
  obtain ⟨k, hklt, hkeq, hkbiz, hkmin⟩ :=
    findPrevBusinessDayAux_spec H (businessFuel H) x
      (exists_businessDay_lt_businessFuel H x)
  rw [hkeq]
  have hbf := endOfDaySet_fields (x - (k : Int) * 86400000) workEnd
    (by norm_num [workEnd]) (by norm_num [workEnd])
  have hsf := fields_sub_days x k
  have hdi := dayIndex_sub_days x k
  refine ⟨rfl, ?_, ?_, ?_, ?_, ?_, ?_⟩
  · exact (isBusinessDay_congr H hbf.1).trans hkbiz
  · exact hbf.2.1
  · exact hbf.2.2.1
  · exact hbf.2.2.2.trans hsf.2.2
  · rw [hbf.1, hdi]
    omega
  · intro j hj1 hj2
    rw [hbf.1, hdi] at hj1
    obtain ⟨j', hj'eq⟩ : ∃ j' : Nat, (j' : Int) = dayIndex x - j :=
      ⟨_, Int.toNat_of_nonneg (by omega)⟩
    have hfalse := hkmin j' (by omega)
    have h1 : dayIndex (j * 86400000) = j := by
      unfold dayIndex
      omega
    have h2 := dayIndex_sub_days x j'
    have hcg : dayIndex (j * 86400000) = dayIndex (x - (j' : Int) * 86400000) := by
      omega
    rw [isBusinessDay_congr H hcg]
    exact hfalse

/-- C7 witness: Saturday 2025-09-20 at 14:00 Colombia-local with an empty
holiday set satisfies all parts of the amended statement. -/
theorem adjust_notBusinessDay_prevBusinessEnd_witness :
    (adjustToPrevBusinessTime (daysFromCivil 2025 9 20 * 86400000 +
        14 * 3600000) []).wasAdjusted = true ∧
      isBusinessDay (adjustToPrevBusinessTime (daysFromCivil 2025 9 20 * 86400000 +
        14 * 3600000) []).date [] = true ∧
      getHours (adjustToPrevBusinessTime (daysFromCivil 2025 9 20 * 86400000 +
        14 * 3600000) []).date = 17 ∧
      getMinutes (adjustToPrevBusinessTime (daysFromCivil 2025 9 20 * 86400000 +
        14 * 3600000) []).date = 0 ∧
      (adjustToPrevBusinessTime (daysFromCivil 2025 9 20 * 86400000 +
        14 * 3600000) []).date % 60000 =
        (daysFromCivil 2025 9 20 * 86400000 + 14 * 3600000) % 60000 ∧
      dayIndex (adjustToPrevBusinessTime (daysFromCivil 2025 9 20 * 86400000 +
        14 * 3600000) []).date ≤
        dayIndex (daysFromCivil 2025 9 20 * 86400000 + 14 * 3600000) ∧
      ∀ j : Int, dayIndex (adjustToPrevBusinessTime (daysFromCivil 2025 9 20 * 86400000 +
        14 * 3600000) []).date < j →
        j ≤ dayIndex (daysFromCivil 2025 9 20 * 86400000 + 14 * 3600000) →
        isBusinessDay (j * 86400000) [] = false :=
  adjust_notBusinessDay_prevBusinessEnd _ [] (by decide)

/-- C7 counterexample: Saturday 2025-04-12 at 10:00:30 Colombia-local
(empty holiday set) is adjusted to Friday 17:00:30 — the 30 input
seconds are preserved, so the returned time-of-day is not exactly
17:00:00 as the claim states. -/
theorem adjust_notBusinessDay_seconds_counterexample :
    isBusinessDay (daysFromCivil 2025 4 12 * 86400000 + 10 * 3600000 +
        30000) [] = false ∧
      msOfDay (adjustToPrevBusinessTime (daysFromCivil 2025 4 12 * 86400000 +
        10 * 3600000 + 30000) []).date ≠ 17 * 3600000 := by
  decide

/-- C8: with holidays 2025-04-17 and 2025-04-18, starting at
2025-04-10T15:00:00Z (Thursday 10:00 Colombia-local) and adding 5
business days plus 4 business hours yields 2025-04-21T20:00:00Z, whose
Colombia-local civil time is 2025-04-21 15:00. -/
theorem calculateBusinessTime_scenario_apr2025 :
    calculateBusinessTime
        (some (daysFromCivil 2025 4 10 * 86400000 + 15 * 3600000)) 0
        (some 5) (some 4)
        [daysFromCivil 2025 4 17, daysFromCivil 2025 4 18] =
      daysFromCivil 2025 4 21 * 86400000 + 20 * 3600000 := by
  decide

/-- C9: zero is an identity for both `addBusinessDays` and
`addBusinessHours`: with a zero count each returns the start date at
once, with no clamping or adjustment applied inside either function. -/
theorem addBusiness_zero_identity (x : Int) (H : List Int) :
    addBusinessDays x 0 H = x ∧ addBusinessHours x 0 H = x := by
  constructor
  · simp [addBusinessDays]
  · simp [addBusinessHours]

/-- C10: at exactly 12:00 with zero minutes on a business day the lunch
branch fires: the returned date equals the input (the set operations
rewrite the values already present) while `wasAdjusted` is `true` — so
`wasAdjusted = true` does not imply the returned instant differs from
the input. -/
theorem adjust_lunchNoon_wasAdjusted_same_date (x : Int) (H : List Int)
    (hbiz : isBusinessDay x H = true) (hh : getHours x = 12)
    (hm : getMinutes x = 0) :
    (adjustToPrevBusinessTime x H).date = x ∧
      (adjustToPrevBusinessTime x H).wasAdjusted = true := by
  rw [adjust_fixed_lunchStart hbiz hh hm]
  exact ⟨rfl, rfl⟩

/-- C10 witness: Monday 2025-04-14 at exactly 12:00 Colombia-local,
empty holiday set. -/
theorem adjust_lunchNoon_wasAdjusted_same_date_witness :
    (adjustToPrevBusinessTime (daysFromCivil 2025 4 14 * 86400000 +
        12 * 3600000) []).date =
        daysFromCivil 2025 4 14 * 86400000 + 12 * 3600000 ∧
      (adjustToPrevBusinessTime (daysFromCivil 2025 4 14 * 86400000 +
        12 * 3600000) []).wasAdjusted = true :=
  adjust_lunchNoon_wasAdjusted_same_date _ [] (by decide) (by decide) (by decide)

/-! ## Evaluation lemmas for the holiday service -/

theorem isCircuitOpen_notOpen {cb : CircuitBreakerState} (now : Int)
    (h : cb.state ≠ .OPEN) : isCircuitOpen cb now = (false, cb) := by
  unfold isCircuitOpen
  cases hs : cb.state
  · rfl
  · exact absurd hs h
  · rfl

theorem isCircuitOpen_open_within {cb : CircuitBreakerState} {now : Int}
    (h : cb.state = .OPEN) (ht : now - cb.lastFailureTime ≤ CIRCUIT_TIMEOUT) :
    isCircuitOpen cb now = (true, cb) := by
  unfold isCircuitOpen
  rw [h]
  rw [if_neg (by omega)]

theorem isCircuitOpen_open_elapsed {cb : CircuitBreakerState} {now : Int}
    (h : cb.state = .OPEN) (ht : CIRCUIT_TIMEOUT < now - cb.lastFailureTime) :
    isCircuitOpen cb now = (false, { cb with state := .HALF_OPEN }) := by
  unfold isCircuitOpen
  rw [h]
  rw [if_pos (by omega)]

theorem isCircuitOpen_snd_fields (cb : CircuitBreakerState) (now : Int) :
    (isCircuitOpen cb now).2.failures = cb.failures ∧
      (isCircuitOpen cb now).2.lastFailureTime = cb.lastFailureTime := by
  unfold isCircuitOpen
  cases hs : cb.state
  · exact ⟨rfl, rfl⟩
  · by_cases ht : now - cb.lastFailureTime > CIRCUIT_TIMEOUT
    · rw [if_pos ht]
      exact ⟨rfl, rfl⟩
    · rw [if_neg ht]
      exact ⟨rfl, rfl⟩
  · exact ⟨rfl, rfl⟩

theorem isCircuitOpen_false_not_open {cb : CircuitBreakerState} {now : Int}
    (h : (isCircuitOpen cb now).1 = false) :
    (isCircuitOpen cb now).2.state ≠ .OPEN := by
  by_cases hs : cb.state = .OPEN
  · by_cases ht : now - cb.lastFailureTime ≤ CIRCUIT_TIMEOUT
    · rw [isCircuitOpen_open_within hs ht] at h
      simp at h
    · rw [isCircuitOpen_open_elapsed hs (by omega)]
      simp
  · rw [isCircuitOpen_notOpen now hs]
    simpa using hs

theorem recordFailure_fields (cb : CircuitBreakerState) (now : Int) :
    (recordFailure cb now).failures = cb.failures + 1 ∧
      (recordFailure cb now).lastFailureTime = now ∧
      (MAX_FAILURES ≤ cb.failures + 1 → (recordFailure cb now).state = .OPEN) ∧
      (cb.failures + 1 < MAX_FAILURES → (recordFailure cb now).state = cb.state) := by
  unfold recordFailure
  by_cases h : cb.failures + 1 ≥ MAX_FAILURES
  · rw [if_pos h]
    exact ⟨rfl, rfl, fun _ => rfl, fun hlt => absurd h (by omega)⟩
  · rw [if_neg h]
    exact ⟨rfl, rfl, fun hge => absurd hge h, fun _ => rfl⟩

theorem getColombianHolidays_of_miss (s : ServiceState) (now y : Int)
    (f : FetchCycleOutcome)
    (hmiss : ∀ c, s.cache = some c → CACHE_DURATION ≤ now - s.lastFetch) :
    getColombianHolidays s now y f = getColombianHolidaysUncached s now y f := by
  unfold getColombianHolidays
  cases hc : s.cache with
  | none => rfl
  | some c =>
      dsimp only
      rw [if_neg (by have := hmiss c hc; omega)]

theorem uncached_eval_open (s : ServiceState) (now y : Int)
    (f : FetchCycleOutcome) (hopen : (isCircuitOpen s.circuitBreaker now).1 = true) :
    getColombianHolidaysUncached s now y f =
      ⟨getFallbackResult y,
        { s with circuitBreaker := (isCircuitOpen s.circuitBreaker now).2 }, false⟩ := by
  simp only [getColombianHolidaysUncached, hopen]
  norm_num

theorem uncached_eval_success (s : ServiceState) (now y : Int) (h : List String)
    (hallow : (isCircuitOpen s.circuitBreaker now).1 = false) :
    getColombianHolidaysUncached s now y (.success h) =
      ⟨⟨h, .HEALTHY, .API, some now⟩,
        ⟨some h, now, resetCircuitBreaker (isCircuitOpen s.circuitBreaker now).2⟩,
        true⟩ := by
  simp only [getColombianHolidaysUncached, hallow]
  norm_num

theorem uncached_eval_exhausted (s : ServiceState) (now y : Int) (e : String)
    (hallow : (isCircuitOpen s.circuitBreaker now).1 = false) :
    getColombianHolidaysUncached s now y (.exhausted e) =
      match s.cache with
      | some c =>
          ⟨⟨c, .DEGRADED, .CACHE, some s.lastFetch⟩,
            { s with circuitBreaker :=
                recordFailure (isCircuitOpen s.circuitBreaker now).2 now }, true⟩
      | none =>
          ⟨getFallbackResult y,
            { s with circuitBreaker :=
                recordFailure (isCircuitOpen s.circuitBreaker now).2 now }, true⟩ := by
  simp only [getColombianHolidaysUncached, hallow]
  norm_num

theorem getFallbackResult_filter (y : Int) (hy : 0 < y) :
    getFallbackResult y =
      ⟨FALLBACK_COLOMBIAN_HOLIDAYS.filter (fun h =>
          decide (y ≤ holidayYear h ∧ holidayYear h ≤ y + 1)),
        .FAILED, .FALLBACK, none⟩ := by
  unfold getFallbackResult getFallbackHolidays
  have h1 : truthyIntArg (some y) = true := by
    simp only [truthyIntArg, decide_eq_true_eq]
    omega
  have h2 : truthyIntArg (some (y + 1)) = true := by
    simp only [truthyIntArg, decide_eq_true_eq]
    omega
  rw [h1, h2]
  norm_num

theorem cacheHit_eval (s : ServiceState) (now y : Int)
    (f : FetchCycleOutcome) (c : List String) (hc : s.cache = some c)
    (httl : now - s.lastFetch < CACHE_DURATION) :
    getColombianHolidays s now y f =
      ⟨⟨c, .HEALTHY, .CACHE, some s.lastFetch⟩, s, false⟩ := by
  unfold getColombianHolidays
  rw [hc]
  dsimp only
  rw [if_pos httl]

/-- C2: a call that finds a cache entry within the 24-hour TTL returns
the cached list with status HEALTHY, source CACHE and `lastUpdated`
equal to the cached fetch instant, performs no fetch cycle, and leaves
the whole service state (cache and circuit breaker) unchanged. -/
theorem getColombianHolidays_freshCache (s : ServiceState)
    (now currentYear : Int) (fetch : FetchCycleOutcome) (c : List String)
    (hc : s.cache = some c) (httl : now - s.lastFetch < CACHE_DURATION) :
    getColombianHolidays s now currentYear fetch =
      ⟨⟨c, .HEALTHY, .CACHE, some s.lastFetch⟩, s, false⟩ :=
  cacheHit_eval s now currentYear fetch c hc httl

/-- C2 witness: a service state fetched at instant 100 queried at
instant 200 answers from cache and is left untouched. -/
theorem getColombianHolidays_freshCache_witness :
    getColombianHolidays ⟨some ["2025-01-01"], 100, ⟨0, 0, .CLOSED⟩⟩ 200 2025
        (.exhausted "boom") =
      ⟨⟨["2025-01-01"], .HEALTHY, .CACHE, some 100⟩,
        ⟨some ["2025-01-01"], 100, ⟨0, 0, .CLOSED⟩⟩, false⟩ :=
  getColombianHolidays_freshCache _ 200 2025 _ _ rfl (by decide)

/-- C3: when a call misses the cache, passes the breaker check and its
fetch exhausts all retries, the call records the failure (counter
incremented, failure time set to `now`, phase OPEN once the counter
reaches 3) and then returns the stale cache as DEGRADED/CACHE with the
cached fetch instant when a cache entry exists, and otherwise the
fallback result — the static list filtered to the inclusive year range
`[currentYear, currentYear + 1]`, FAILED, FALLBACK, `lastUpdated`
null — never propagating the fetch error. -/
theorem getColombianHolidays_exhaustedRetries (s : ServiceState)
    (now currentYear : Int) (e : String)
    (hmiss : ∀ c, s.cache = some c → CACHE_DURATION ≤ now - s.lastFetch)
    (hallow : (isCircuitOpen s.circuitBreaker now).1 = false) :
    (getColombianHolidays s now currentYear (.exhausted e)).fetched = true ∧
      (getColombianHolidays s now currentYear
          (.exhausted e)).state.circuitBreaker.failures =
        s.circuitBreaker.failures + 1 ∧
      (getColombianHolidays s now currentYear
          (.exhausted e)).state.circuitBreaker.lastFailureTime = now ∧
      (MAX_FAILURES ≤ s.circuitBreaker.failures + 1 →
        (getColombianHolidays s now currentYear
          (.exhausted e)).state.circuitBreaker.state = .OPEN) ∧
      (∀ c, s.cache = some c →
        (getColombianHolidays s now currentYear (.exhausted e)).result =
          ⟨c, .DEGRADED, .CACHE, some s.lastFetch⟩) ∧
      (s.cache = none →
        (getColombianHolidays s now currentYear (.exhausted e)).result =
          getFallbackResult currentYear) ∧
      (0 < currentYear →
        getFallbackResult currentYear =
          ⟨FALLBACK_COLOMBIAN_HOLIDAYS.filter (fun h =>
              decide (currentYear ≤ holidayYear h ∧
                holidayYear h ≤ currentYear + 1)),
            .FAILED, .FALLBACK, none⟩) := by
  rw [getColombianHolidays_of_miss s now currentYear _ hmiss,
    uncached_eval_exhausted s now currentYear e hallow]
  have hio := isCircuitOpen_snd_fields s.circuitBreaker now
  have hrf := recordFailure_fields (isCircuitOpen s.circuitBreaker now).2 now
  cases hc : s.cache with
  | some c =>
      dsimp only
      refine ⟨rfl, ?_, ?_, ?_, ?_, ?_, ?_⟩
      · rw [hrf.1, hio.1]
      · exact hrf.2.1
      · intro hge
        have h1 := hio.1
        exact hrf.2.2.1 (by omega)
      · intro c' hc'
        injection hc' with h'
        rw [h']
      · intro hnone
        cases hnone
      · intro hy
        exact getFallbackResult_filter currentYear hy
  | none =>
      dsimp only
      refine ⟨rfl, ?_, ?_, ?_, ?_, ?_, ?_⟩
      · rw [hrf.1, hio.1]
      · exact hrf.2.1
      · intro hge
        have h1 := hio.1
        exact hrf.2.2.1 (by omega)
      · intro c' hc'
        cases hc'
      · intro _
        rfl
      · intro hy
        exact getFallbackResult_filter currentYear hy

/-- C3 witness: first-ever call (no cache, breaker CLOSED at zero) whose
fetch exhausts retries at instant 0, year 2025. -/
theorem getColombianHolidays_exhaustedRetries_witness :
    (getColombianHolidays initialServiceState 0 2025
        (.exhausted "boom")).fetched = true ∧
      (getColombianHolidays initialServiceState 0 2025
          (.exhausted "boom")).state.circuitBreaker.failures =
        initialServiceState.circuitBreaker.failures + 1 ∧
      (getColombianHolidays initialServiceState 0 2025
          (.exhausted "boom")).state.circuitBreaker.lastFailureTime = 0 ∧
      (MAX_FAILURES ≤ initialServiceState.circuitBreaker.failures + 1 →
        (getColombianHolidays initialServiceState 0 2025
          (.exhausted "boom")).state.circuitBreaker.state = .OPEN) ∧
      (∀ c, initialServiceState.cache = some c →
        (getColombianHolidays initialServiceState 0 2025 (.exhausted "boom")).result =
          ⟨c, .DEGRADED, .CACHE, some initialServiceState.lastFetch⟩) ∧
      (initialServiceState.cache = none →
        (getColombianHolidays initialServiceState 0 2025 (.exhausted "boom")).result =
          getFallbackResult 2025) ∧
      ((0 : Int) < 2025 →
        getFallbackResult 2025 =
          ⟨FALLBACK_COLOMBIAN_HOLIDAYS.filter (fun h =>
              decide ((2025 : Int) ≤ holidayYear h ∧
                holidayYear h ≤ 2025 + 1)),
            .FAILED, .FALLBACK, none⟩) :=
  getColombianHolidays_exhaustedRetries initialServiceState 0 2025 "boom"
    (fun c hc => nomatch hc) (by decide)

theorem isCircuitOpen_true_eval {cb : CircuitBreakerState} {now : Int}
    (h : (isCircuitOpen cb now).1 = true) :
    cb.state = .OPEN ∧ isCircuitOpen cb now = (true, cb) := by
  by_cases hs : cb.state = .OPEN
  · by_cases ht : now - cb.lastFailureTime ≤ CIRCUIT_TIMEOUT
    · exact ⟨hs, isCircuitOpen_open_within hs ht⟩
    · rw [isCircuitOpen_open_elapsed hs (by omega)] at h
      simp at h
  · rw [isCircuitOpen_notOpen now hs] at h
    simp at h

theorem state_cb_after_exhausted (s : ServiceState) (now y : Int) (e : String)
    (hmiss : ∀ c, s.cache = some c → CACHE_DURATION ≤ now - s.lastFetch)
    (hallow : (isCircuitOpen s.circuitBreaker now).1 = false) :
    (getColombianHolidays s now y (.exhausted e)).state.circuitBreaker =
        recordFailure (isCircuitOpen s.circuitBreaker now).2 now ∧
      (getColombianHolidays s now y (.exhausted e)).fetched = true := by
  rw [getColombianHolidays_of_miss s now y _ hmiss,
    uncached_eval_exhausted s now y e hallow]
  cases hc : s.cache
  · exact ⟨rfl, rfl⟩
  · exact ⟨rfl, rfl⟩

theorem state_cb_after_success (s : ServiceState) (now y : Int)
    (h : List String)
    (hmiss : ∀ c, s.cache = some c → CACHE_DURATION ≤ now - s.lastFetch)
    (hallow : (isCircuitOpen s.circuitBreaker now).1 = false) :
    (getColombianHolidays s now y (.success h)).state.circuitBreaker =
        resetCircuitBreaker (isCircuitOpen s.circuitBreaker now).2 ∧
      (getColombianHolidays s now y (.success h)).fetched = true := by
  rw [getColombianHolidays_of_miss s now y _ hmiss,
    uncached_eval_success s now y h hallow]
  exact ⟨rfl, rfl⟩

/-- C1 (amended): the circuit-breaker state machine of
`getColombianHolidays`, with the cooldown boundary as the code tests it
(`now - lastFailureTime > CIRCUIT_TIMEOUT`): a cache-missing call whose
fetch exhausts its retries increments the consecutive-failure count and
records the failure time, and the post-call phase is OPEN exactly when
the count reaches 3; while OPEN, every cache-missing call made at most
5 minutes after the last failure returns the fallback result without
any fetch attempt and changes nothing; a call made strictly more than
5 minutes after the last failure flips the breaker to HALF_OPEN and
performs one fetch cycle, after which the phase is CLOSED with failure
count 0 on success, or OPEN with an incremented count and a restarted
timer on failure; and the invariant that phase OPEN implies at least 3
recorded failures is preserved by every call. -/
theorem circuitBreaker_state_machine :
    (∀ (s : ServiceState) (now currentYear : Int) (f : FetchCycleOutcome),
      (∀ c, s.cache = some c → CACHE_DURATION ≤ now - s.lastFetch) →
      s.circuitBreaker.state = .OPEN →
      now - s.circuitBreaker.lastFailureTime ≤ CIRCUIT_TIMEOUT →
      getColombianHolidays s now currentYear f =
        ⟨getFallbackResult currentYear, s, false⟩) ∧
    (∀ (cb : CircuitBreakerState) (now : Int), cb.state = .OPEN →
      CIRCUIT_TIMEOUT < now - cb.lastFailureTime →
      isCircuitOpen cb now = (false, { cb with state := .HALF_OPEN })) ∧
    (∀ (s : ServiceState) (now currentYear : Int) (e : String),
      (∀ c, s.cache = some c → CACHE_DURATION ≤ now - s.lastFetch) →
      (isCircuitOpen s.circuitBreaker now).1 = false →
      (getColombianHolidays s now currentYear (.exhausted e)).fetched = true ∧
        (getColombianHolidays s now currentYear
            (.exhausted e)).state.circuitBreaker.failures =
          s.circuitBreaker.failures + 1 ∧
        (getColombianHolidays s now currentYear
            (.exhausted e)).state.circuitBreaker.lastFailureTime = now ∧
        ((getColombianHolidays s now currentYear
            (.exhausted e)).state.circuitBreaker.state = .OPEN ↔
          MAX_FAILURES ≤ s.circuitBreaker.failures + 1)) ∧
    (∀ (s : ServiceState) (now currentYear : Int) (h : List String),
      (∀ c, s.cache = some c → CACHE_DURATION ≤ now - s.lastFetch) →
      s.circuitBreaker.state = .OPEN →
      CIRCUIT_TIMEOUT < now - s.circuitBreaker.lastFailureTime →
      (getColombianHolidays s now currentYear (.success h)).fetched = true ∧
        (getColombianHolidays s now currentYear
          (.success h)).state.circuitBreaker.state = .CLOSED ∧
        (getColombianHolidays s now currentYear
          (.success h)).state.circuitBreaker.failures = 0) ∧
    (∀ (s : ServiceState) (now currentYear : Int) (e : String),
      (∀ c, s.cache = some c → CACHE_DURATION ≤ now - s.lastFetch) →
      s.circuitBreaker.state = .OPEN →
      CIRCUIT_TIMEOUT < now - s.circuitBreaker.lastFailureTime →
      MAX_FAILURES ≤ s.circuitBreaker.failures →
      (getColombianHolidays s now currentYear (.exhausted e)).fetched = true ∧
        (getColombianHolidays s now currentYear
          (.exhausted e)).state.circuitBreaker.state = .OPEN ∧
        (getColombianHolidays s now currentYear
            (.exhausted e)).state.circuitBreaker.failures =
          s.circuitBreaker.failures + 1 ∧
        (getColombianHolidays s now currentYear
          (.exhausted e)).state.circuitBreaker.lastFailureTime = now) ∧
    (∀ (s : ServiceState) (now currentYear : Int) (f : FetchCycleOutcome),
      (s.circuitBreaker.state = .OPEN →
        MAX_FAILURES ≤ s.circuitBreaker.failures) →
      (getColombianHolidays s now currentYear f).state.circuitBreaker.state =
        .OPEN →
      MAX_FAILURES ≤
        (getColombianHolidays s now currentYear
          f).state.circuitBreaker.failures) := by
  refine ⟨?_, ?_, ?_, ?_, ?_, ?_⟩
  · intro s now y f hmiss hst ht
    have hiso := isCircuitOpen_open_within hst ht
    rw [getColombianHolidays_of_miss s now y f hmiss,
      uncached_eval_open s now y f (by rw [hiso])]
    rw [hiso]
  · intro cb now hst ht
    exact isCircuitOpen_open_elapsed hst ht
  · intro s now y e hmiss hallow
    obtain ⟨hcb, hfetched⟩ := state_cb_after_exhausted s now y e hmiss hallow
    have hio := isCircuitOpen_snd_fields s.circuitBreaker now
    have hrf := recordFailure_fields (isCircuitOpen s.circuitBreaker now).2 now
    refine ⟨hfetched, ?_, ?_, ?_, ?_⟩
    · rw [hcb, hrf.1, hio.1]
    · rw [hcb]
      exact hrf.2.1
    · rw [hcb]
      intro hopen'
      by_contra hlt
      push_neg at hlt
      have h1 := hio.1
      have hkeep := hrf.2.2.2 (by omega)
      rw [hkeep] at hopen'
      exact isCircuitOpen_false_not_open hallow hopen'
    · rw [hcb]
      intro hge
      have h1 := hio.1
      exact hrf.2.2.1 (by omega)
  · intro s now y h hmiss hst ht
    have hiso := isCircuitOpen_open_elapsed hst ht
    obtain ⟨hcb, hfetched⟩ :=
      state_cb_after_success s now y h hmiss (by rw [hiso])
    rw [hiso] at hcb
    refine ⟨hfetched, ?_, ?_⟩
    · rw [hcb]
      rfl
    · rw [hcb]
      rfl
  · intro s now y e hmiss hst ht hge
    have hiso := isCircuitOpen_open_elapsed hst ht
    obtain ⟨hcb, hfetched⟩ :=
      state_cb_after_exhausted s now y e hmiss (by rw [hiso])
    rw [hiso] at hcb
    have hrf := recordFailure_fields
      { s.circuitBreaker with state := CBPhase.HALF_OPEN } now
    have hf : ({ s.circuitBreaker with state := CBPhase.HALF_OPEN } :
        CircuitBreakerState).failures = s.circuitBreaker.failures := rfl
    refine ⟨hfetched, ?_, ?_, ?_⟩
    · rw [hcb]
      exact hrf.2.2.1 (by omega)
    · rw [hcb]
      exact hrf.1
    · rw [hcb]
      exact hrf.2.1
  · intro s now y f hinv hopen'
    by_cases hhit : ∃ c, s.cache = some c ∧ now - s.lastFetch < CACHE_DURATION
    · obtain ⟨c, hc, httl⟩ := hhit
      rw [cacheHit_eval s now y f c hc httl] at hopen' ⊢
      exact hinv hopen'
    · have hmiss : ∀ c, s.cache = some c → CACHE_DURATION ≤ now - s.lastFetch := by
        intro c hc
        by_contra hlt
        push_neg at hlt
        exact hhit ⟨c, hc, by omega⟩
      by_cases hob : (isCircuitOpen s.circuitBreaker now).1 = true
      · obtain ⟨hs, hiso⟩ := isCircuitOpen_true_eval hob
        rw [getColombianHolidays_of_miss s now y f hmiss,
          uncached_eval_open s now y f hob, hiso] at hopen' ⊢
        exact hinv hs
      · have hallow : (isCircuitOpen s.circuitBreaker now).1 = false := by
          cases hx : (isCircuitOpen s.circuitBreaker now).1
          · rfl
          · exact absurd hx hob
        cases f with
        | success h =>
            obtain ⟨hcb, _⟩ := state_cb_after_success s now y h hmiss hallow
            rw [hcb] at hopen'
            cases hopen'
        | exhausted e =>
            obtain ⟨hcb, _⟩ := state_cb_after_exhausted s now y e hmiss hallow
            rw [hcb] at hopen' ⊢
            have hio := isCircuitOpen_snd_fields s.circuitBreaker now
            have hrf := recordFailure_fields
              (isCircuitOpen s.circuitBreaker now).2 now
            by_cases hth : MAX_FAILURES ≤
                (isCircuitOpen s.circuitBreaker now).2.failures + 1
            · rw [hrf.1]
              omega
            · have hkeep := hrf.2.2.2 (by omega)
              rw [hkeep] at hopen'
              exact absurd hopen' (isCircuitOpen_false_not_open hallow)

/-- C1 counterexample: breaker OPEN since instant 0 with 3 failures, no
cache; a call at exactly 5 minutes (300000 ms) after the last failure —
"at least 5 minutes" in the claim — performs no fetch cycle and leaves
the phase OPEN, because the code moves to HALF_OPEN only strictly after
the 5-minute cooldown. -/
theorem circuitBreaker_boundary_counterexample :
    (getColombianHolidays ⟨none, 0, ⟨3, 0, .OPEN⟩⟩ 300000 2025
        (.success ["2025-01-01"])).fetched = false ∧
      (getColombianHolidays ⟨none, 0, ⟨3, 0, .OPEN⟩⟩ 300000 2025
        (.success ["2025-01-01"])).state.circuitBreaker.state = .OPEN := by
  decide

/-- C1 witness: the short-circuit conjunct at a concrete OPEN state
within the cooldown, and the failure-recording conjunct at the initial
state. -/
theorem circuitBreaker_state_machine_witness :
    getColombianHolidays ⟨none, 0, ⟨3, 100, .OPEN⟩⟩ 200 2025 (.exhausted "x") =
        ⟨getFallbackResult 2025, ⟨none, 0, ⟨3, 100, .OPEN⟩⟩, false⟩ ∧
      ((getColombianHolidays initialServiceState 7 2025
          (.exhausted "x")).fetched = true ∧
        (getColombianHolidays initialServiceState 7 2025
            (.exhausted "x")).state.circuitBreaker.failures =
          initialServiceState.circuitBreaker.failures + 1 ∧
        (getColombianHolidays initialServiceState 7 2025
            (.exhausted "x")).state.circuitBreaker.lastFailureTime = 7 ∧
        ((getColombianHolidays initialServiceState 7 2025
            (.exhausted "x")).state.circuitBreaker.state = .OPEN ↔
          MAX_FAILURES ≤ initialServiceState.circuitBreaker.failures + 1)) :=
  ⟨circuitBreaker_state_machine.1 _ 200 2025 _ (fun c hc => nomatch hc) rfl
      (by decide),
    circuitBreaker_state_machine.2.2.1 initialServiceState 7 2025 "x"
      (fun c hc => nomatch hc) (by decide)⟩

/-! ## Facts about the retry loop -/

theorem fetchWithRetryAux_attempts (outcomes : Nat → AttemptOutcome)
    (rand : Nat → ℚ) :
    ∀ (n i : Nat), (fetchWithRetryAux outcomes rand i n).attemptsMade ≤ n + 1 := by
  intro n
  induction n with
  | zero =>
      intro i
      unfold fetchWithRetryAux
      cases h : attemptResult (outcomes i) <;> simp
  | succ m ih =>
      intro i
      unfold fetchWithRetryAux
      cases h : attemptResult (outcomes i) with
      | error e =>
          dsimp only
          have := ih (i + 1)
          omega
      | ok data =>
          dsimp only
          omega

theorem fetchWithRetryAux_delays_pos (outcomes : Nat → AttemptOutcome)
    (rand : Nat → ℚ) :
    ∀ (n i : Nat), 1 ≤ i →
      (fetchWithRetryAux outcomes rand i n).delays =
        (List.range (fetchWithRetryAux outcomes rand i n).attemptsMade).map
          (fun t => calculateBackoffDelay (i + t) (rand (i + t))) := by
  intro n
  induction n with
  | zero =>
      intro i hi
      unfold fetchWithRetryAux
      cases h : attemptResult (outcomes i) <;>
      · dsimp only
        rw [if_pos (by omega : i > 0)]
        simp [List.range_succ]
  | succ m ih =>
      intro i hi
      unfold fetchWithRetryAux
      cases h : attemptResult (outcomes i) with
      | ok data =>
          dsimp only
          rw [if_pos (by omega : i > 0)]
          simp [List.range_succ]
      | error e =>
          dsimp only
          rw [if_pos (by omega : i > 0)]
          rw [ih (i + 1) (by omega)]
          rw [List.range_succ_eq_map, List.map_cons, List.map_map]
          have hfun : (fun t => calculateBackoffDelay (i + t) (rand (i + t))) ∘
              Nat.succ = fun u =>
                calculateBackoffDelay (i + 1 + u) (rand (i + 1 + u)) := by
            funext u
            have harg : i + Nat.succ u = i + 1 + u := by omega
            simp only [Function.comp]
            rw [harg]
          rw [hfun]
          simp

theorem fetchWithRetryAux_attempts_pos (outcomes : Nat → AttemptOutcome)
    (rand : Nat → ℚ) (n i : Nat) :
    1 ≤ (fetchWithRetryAux outcomes rand i n).attemptsMade := by
  unfold fetchWithRetryAux
  cases h : attemptResult (outcomes i) with
  | ok data =>
      dsimp only
      omega
  | error e =>
      cases n with
      | zero =>
          dsimp only
          omega
      | succ m =>
          dsimp only
          omega

theorem fetchWithRetry_allFail (outcomes : Nat → AttemptOutcome)
    (rand : Nat → ℚ) (e0 e1 e2 e3 : String)
    (h0 : attemptResult (outcomes 0) = .error e0)
    (h1 : attemptResult (outcomes 1) = .error e1)
    (h2 : attemptResult (outcomes 2) = .error e2)
    (h3 : attemptResult (outcomes 3) = .error e3) :
    (fetchWithRetry outcomes rand).result = .error e3 ∧
      (fetchWithRetry outcomes rand).attemptsMade = 4 := by
  unfold fetchWithRetry
  unfold fetchWithRetryAux
  rw [h0]
  dsimp only
  unfold fetchWithRetryAux
  rw [h1]
  dsimp only
  unfold fetchWithRetryAux
  rw [h2]
  dsimp only
  unfold fetchWithRetryAux
  rw [h3]
  exact ⟨rfl, rfl⟩

/-- C4: the retry loop of `fetchWithRetry` makes at most 4 attempts
(1 initial + 3 retries); it sleeps before every retry attempt `k ≥ 1`,
and that backoff delay equals
`min(10000 ms, 1000 ms * 2^(k-1) * (1 + j))` for a jitter `j` in
`[0, 1/10)` whenever the random draw lies in `[0, 1)`; a response whose
payload is not an array is an error for retry purposes; and when all 4
attempts fail the trace's outcome is the last attempt's error. -/
theorem fetchWithRetry_retryPolicy :
    (∀ (outcomes : Nat → AttemptOutcome) (rand : Nat → ℚ),
      (fetchWithRetry outcomes rand).attemptsMade ≤ 4) ∧
    (∀ (outcomes : Nat → AttemptOutcome) (rand : Nat → ℚ),
      (fetchWithRetry outcomes rand).delays =
        (List.range ((fetchWithRetry outcomes rand).attemptsMade - 1)).map
          (fun t => calculateBackoffDelay (t + 1) (rand (t + 1)))) ∧
    (∀ k : Nat, 1 ≤ k → ∀ q : ℚ, 0 ≤ q → q < 1 →
      ∃ j : ℚ, 0 ≤ j ∧ j < 1 / 10 ∧
        calculateBackoffDelay k q =
          min 10000 (1000 * 2 ^ (k - 1) * (1 + j))) ∧
    (∀ data : List String, attemptResult (.responded false data) =
      .error "Invalid response format from holidays service") ∧
    (∀ (outcomes : Nat → AttemptOutcome) (rand : Nat → ℚ)
      (data : List String),
      outcomes 0 = .responded false data →
      2 ≤ (fetchWithRetry outcomes rand).attemptsMade) ∧
    (∀ (outcomes : Nat → AttemptOutcome) (rand : Nat → ℚ)
      (e0 e1 e2 e3 : String),
      attemptResult (outcomes 0) = .error e0 →
      attemptResult (outcomes 1) = .error e1 →
      attemptResult (outcomes 2) = .error e2 →
      attemptResult (outcomes 3) = .error e3 →
      (fetchWithRetry outcomes rand).result = .error e3 ∧
        (fetchWithRetry outcomes rand).attemptsMade = 4) := by
  refine ⟨?_, ?_, ?_, ?_, ?_, ?_⟩
  · intro outcomes rand
    exact fetchWithRetryAux_attempts outcomes rand 3 0
  · intro outcomes rand
    unfold fetchWithRetry
    unfold fetchWithRetryAux
    cases h : attemptResult (outcomes 0) with
    | ok data =>
        dsimp only
        simp
    | error e =>
        dsimp only
        rw [fetchWithRetryAux_delays_pos outcomes rand 2 1 (by omega)]
        have hfun : (fun t => calculateBackoffDelay (t + 1) (rand (t + 1))) =
            fun u => calculateBackoffDelay (1 + u) (rand (1 + u)) := by
          funext u
          have harg : u + 1 = 1 + u := by omega
          rw [harg]
        rw [hfun]
        simp
  · intro k hk q hq0 hq1
    refine ⟨q / 10, by positivity, by linarith, ?_⟩
    unfold calculateBackoffDelay
    rw [min_comm]
    have hb : ((BASE_DELAY : Int) : ℚ) = 1000 := by
      norm_num [BASE_DELAY]
    rw [hb]
    ring_nf
  · intro data
    rfl
  · intro outcomes rand data h0
    unfold fetchWithRetry
    unfold fetchWithRetryAux
    rw [h0]
    dsimp only [attemptResult]
    have := fetchWithRetryAux_attempts_pos outcomes rand 2 (0 + 1)
    omega
  · intro outcomes rand e0 e1 e2 e3 h0 h1 h2 h3
    exact fetchWithRetry_allFail outcomes rand e0 e1 e2 e3 h0 h1 h2 h3

/-- C4 witness: the jitter decomposition at `k = 2`, draw `1/2`, and the
last-error propagation for a run whose every attempt is a network
error. -/
theorem fetchWithRetry_retryPolicy_witness :
    (∃ j : ℚ, 0 ≤ j ∧ j < 1 / 10 ∧
      calculateBackoffDelay 2 (1 / 2) =
        min 10000 (1000 * 2 ^ (2 - 1) * (1 + j))) ∧
      2 ≤ (fetchWithRetry (fun _ => .responded false []) (fun _ => 0)).attemptsMade ∧
      ((fetchWithRetry (fun _ => .netError "boom") (fun _ => 0)).result =
          .error "boom" ∧
        (fetchWithRetry (fun _ => .netError "boom")
          (fun _ => 0)).attemptsMade = 4) :=
  ⟨fetchWithRetry_retryPolicy.2.2.1 2 (by norm_num) (1 / 2) (by norm_num)
      (by norm_num),
    fetchWithRetry_retryPolicy.2.2.2.2.1 (fun _ => .responded false [])
      (fun _ => 0) [] rfl,
    fetchWithRetry_retryPolicy.2.2.2.2.2 (fun _ => .netError "boom") (fun _ => 0)
      "boom" "boom" "boom" "boom" rfl rfl rfl rfl⟩

end FechasHabiles
